import Mathlib

/-!
Verification development for the flow-bot framework (Rust, OneBot-11 SDK).

A shallow embedding of the core engine: the JSON frame classification of
the read loop (`FlowBot::run_msg_loop` / `FlowBot::check_is_echo`), the
RPC correlation of `Context::send_obj` / `Context::on_recv_echo`, the
dispatch pipeline of `FlowBot::handle_event`, the extractor protocol of
`base/extract.rs` (the `FromEvent` trait and its instances), and the
startup sequence of `FlowBot::run`.

Conventions of the embedding:
* Rust `i64`/`i32` become `Int`; strings become `String`.
* `serde_json::Value` becomes the inductive `Json`; `serde_json::from_str`
  becomes the executable `parseJson` (a model of a JSON text parser over
  the fragment the frames of this protocol use: objects, arrays, strings
  with the common escapes, integer numbers, booleans, null; float
  literals and unicode escapes are outside the modelled fragment).
* A Rust `panic!` / `.unwrap()` failure is the `PanicOr.panicked` value.
* Async effects (the `get_message` RPC issued inside the `Reply`
  extractor, socket writes) are made observable as explicit action lists.
-/

namespace FlowBotModel

/-- Model of `serde_json::Value`. Object fields keep textual order. -/
inductive Json where
  | null
  | bool (b : Bool)
  | num (n : Int)
  | str (s : String)
  | arr (elems : List Json)
  | obj (fields : List (String × Json))

/-- Model of `serde_json::Map::get`: first binding of the key. -/
def jsonLookup (fields : List (String × Json)) (key : String) : Option Json :=
  match fields with
  | [] => none
  | (k, v) :: rest => if k = key then some v else jsonLookup rest key

/-- Skip JSON whitespace. -/
def skipWs : List Char → List Char
  | c :: cs => if c = ' ' ∨ c = '\n' ∨ c = '\t' ∨ c = '\r' then skipWs cs else c :: cs
  | [] => []

/-- Parse the body of a JSON string literal (after the opening quote),
returning the decoded characters and the rest of the input. -/
def parseStrAux (acc : List Char) : List Char → Option (List Char × List Char)
  | '"' :: cs => some (acc.reverse, cs)
  | '\\' :: c :: cs =>
      match c with
      | '"' => parseStrAux ('"' :: acc) cs
      | '\\' => parseStrAux ('\\' :: acc) cs
      | '/' => parseStrAux ('/' :: acc) cs
      | 'n' => parseStrAux ('\n' :: acc) cs
      | 't' => parseStrAux ('\t' :: acc) cs
      | 'r' => parseStrAux ('\r' :: acc) cs
      | _ => none
  | c :: cs => parseStrAux (c :: acc) cs
  | [] => none

/-- Take a maximal run of decimal digits. -/
def takeDigits : List Char → List Char × List Char
  | c :: cs =>
      if c.isDigit then
        let p := takeDigits cs
        (c :: p.1, p.2)
      else ([], c :: cs)
  | [] => ([], [])

def digitsToNat (ds : List Char) : Nat :=
  ds.foldl (fun acc c => acc * 10 + (c.toNat - 48)) 0

/-- Parse an unsigned integer literal; float syntax is outside the
modelled fragment and rejected. -/
def parseDigits (cs : List Char) : Option (Int × List Char) :=
  let p := takeDigits cs
  if p.1.isEmpty then none
  else
    match p.2 with
    | '.' :: _ => none
    | 'e' :: _ => none
    | 'E' :: _ => none
    | _ => some ((digitsToNat p.1 : Int), p.2)

mutual

/-- Fueled recursive-descent JSON value parser. -/
def parseVal : Nat → List Char → Option (Json × List Char)
  | 0, _ => none
  | Nat.succ fuel, input =>
    match skipWs input with
    | '{' :: rest =>
      (match skipWs rest with
       | '}' :: rest2 => some (Json.obj [], rest2)
       | rest2 =>
         match parseMembers fuel rest2 with
         | some p => some (Json.obj p.1, p.2)
         | none => none)
    | '[' :: rest =>
      (match skipWs rest with
       | ']' :: rest2 => some (Json.arr [], rest2)
       | rest2 =>
         match parseElems fuel rest2 with
         | some p => some (Json.arr p.1, p.2)
         | none => none)
    | '"' :: rest =>
      (match parseStrAux [] rest with
       | some p => some (Json.str (String.mk p.1), p.2)
       | none => none)
    | 't' :: 'r' :: 'u' :: 'e' :: rest => some (Json.bool true, rest)
    | 'f' :: 'a' :: 'l' :: 's' :: 'e' :: rest => some (Json.bool false, rest)
    | 'n' :: 'u' :: 'l' :: 'l' :: rest => some (Json.null, rest)
    | '-' :: rest =>
      (match parseDigits rest with
       | some p => some (Json.num (-p.1), p.2)
       | none => none)
    | c :: rest =>
      if c.isDigit then
        match parseDigits (c :: rest) with
        | some p => some (Json.num p.1, p.2)
        | none => none
      else none
    | [] => none

/-- Object members, at least one, comma separated, closed by the brace. -/
def parseMembers : Nat → List Char → Option (List (String × Json) × List Char)
  | 0, _ => none
  | Nat.succ fuel, input =>
    match skipWs input with
    | '"' :: rest =>
      (match parseStrAux [] rest with
       | none => none
       | some (key, rest2) =>
         match skipWs rest2 with
         | ':' :: rest3 =>
           (match parseVal fuel rest3 with
            | none => none
            | some (v, rest4) =>
              match skipWs rest4 with
              | ',' :: rest5 =>
                (match parseMembers fuel rest5 with
                 | some p => some ((String.mk key, v) :: p.1, p.2)
                 | none => none)
              | '}' :: rest5 => some ([(String.mk key, v)], rest5)
              | _ => none)
         | _ => none)
    | _ => none

/-- Array elements, at least one, comma separated, closed by the bracket. -/
def parseElems : Nat → List Char → Option (List Json × List Char)
  | 0, _ => none
  | Nat.succ fuel, input =>
    match parseVal fuel input with
    | none => none
    | some (v, rest) =>
      match skipWs rest with
      | ',' :: rest2 =>
        (match parseElems fuel rest2 with
         | some p => some (v :: p.1, p.2)
         | none => none)
      | ']' :: rest2 => some ([v], rest2)
      | _ => none

end

/-- Model of `serde_json::from_str::<serde_json::Value>`: parse one value
and require only whitespace to remain. -/
def parseJson (s : String) : Option Json :=
  match parseVal (s.length + 1) s.toList with
  | some (v, rest) => if (skipWs rest).isEmpty then some v else none
  | none => none

/-- The result of a computation that may `panic!` (Rust `.unwrap()`). -/
inductive PanicOr (α : Type) where
  | panicked
  | ok (val : α)
  deriving DecidableEq

/-! ## Event data model (src/event, src/message) -/

/-- Model of `message/segments.rs` `ReplySegment`. -/
structure ReplySegment where
  id : String
  deriving DecidableEq

/-- Model of `message/segments.rs` `AtSegment`. -/
structure AtSegment where
  qq : String
  deriving DecidableEq

/-- Model of `message/segments.rs` `TextSegment`. -/
structure TextSegment where
  text : String
  deriving DecidableEq

/-- Model of `message/segments.rs` `Segment`. The `at` variant is named `atSeg`
(`at` is reserved here). Payloads of variants never inspected by the
engine (faces, images, ...) are not modelled field by field. -/
inductive Segment where
  | text (s : TextSegment)
  | face
  | image
  | record
  | video
  | atSeg (a : AtSegment)
  | dice
  | shake
  | poke
  | anonymous
  | share
  | contact
  | location
  | music
  | reply (r : ReplySegment)
  | forward
  | node
  | xml
  | json
  deriving DecidableEq

/-- Model of `message/mod.rs`: `pub type Message = Vec<Segment>;` (the message body). -/
abbrev MessageBody := List Segment

/-- Model of `event/message.rs` `SenderSex`. -/
inductive SenderSex where
  | male
  | female
  | unknown
  deriving DecidableEq

/-- Model of `event/message.rs` `GroupSenderRole`. -/
inductive GroupSenderRole where
  | owner
  | admin
  | member
  deriving DecidableEq

/-- Model of `event/message.rs` `PrivateSubType`. -/
inductive PrivateSubType where
  | friend
  | group
  | other
  deriving DecidableEq

/-- Model of `event/message.rs` `GroupSubType`. -/
inductive GroupSubType where
  | normal
  | anonymous
  | notice
  deriving DecidableEq

/-- Model of `event/message.rs` `PrivateSenderInfo`. -/
structure PrivateSenderInfo where
  user_id : Option Int
  nickname : Option String
  sex : Option SenderSex
  age : Option Int
  deriving DecidableEq

/-- Model of `event/message.rs` `GroupSenderInfo`. -/
structure GroupSenderInfo where
  user_id : Option Int
  nickname : Option String
  card : Option String
  sex : Option SenderSex
  age : Option Int
  area : Option String
  level : Option String
  role : Option GroupSenderRole
  title : Option String
  deriving DecidableEq

/-- Model of `event/message.rs` `GroupAnonymousInfo`. -/
structure GroupAnonymousInfo where
  id : Int
  name : String
  flag : String
  deriving DecidableEq

/-- Model of `event/message.rs` `PrivateMessageInfo`. -/
structure PrivateMessageInfo where
  sub_type : PrivateSubType
  sender : PrivateSenderInfo
  deriving DecidableEq

/-- Model of `event/message.rs` `GroupMessageInfo`. -/
structure GroupMessageInfo where
  sub_type : GroupSubType
  group_id : Int
  sender : GroupSenderInfo
  anonymous : Option GroupAnonymousInfo
  deriving DecidableEq

/-- Model of `event/message.rs` `TypedMessageInfo` (serde tag `message_type`).
The `Private` variant is named `priv` (`private` is reserved here). -/
inductive TypedMessageInfo where
  | group (info : GroupMessageInfo)
  | priv (info : PrivateMessageInfo)
  deriving DecidableEq

/-- Model of `event/message.rs` `Message` (the message *event* payload struct; named
`MessageEvent` here to distinguish it from the `MessageBody` alias). -/
structure MessageEvent where
  message_id : Int
  user_id : Int
  message : MessageBody
  raw_message : String
  font : Int
  info : TypedMessageInfo
  deriving DecidableEq

/-- Model of `event/mod.rs` `TypedEvent` (serde tag `post_type`, with an untagged
`Unknown` catch-all). Payload shapes of notice / request / meta-event are
never inspected by the engine and are kept as the raw JSON value. -/
inductive TypedEvent where
  | message (m : MessageEvent)
  | notice (raw : Json)
  | request (raw : Json)
  | metaEvent (raw : Json)
  | unknown (raw : Json)

/-- Model of `event/mod.rs` `TypedEvent::get_type`. -/
def TypedEvent.get_type : TypedEvent → String
  | .message _ => "message"
  | .notice _ => "notice"
  | .request _ => "request"
  | .metaEvent _ => "meta_event"
  | .unknown _ => "unknown"

/-- Model of `event/mod.rs` `Event` (= `BotEvent`; the `Arc` sharing wrapper is
identity in this embedding). -/
structure Event where
  time : Int
  self_id : Int
  event : TypedEvent

/-! ## Serde decoding of events (the `Deserialize` derives of src/event) -/

def Json.asStr : Json → Option String
  | .str s => some s
  | _ => none

def Json.asInt : Json → Option Int
  | .num n => some n
  | _ => none

def Json.asObj : Json → Option (List (String × Json))
  | .obj fields => some fields
  | _ => none

def Json.asArr : Json → Option (List Json)
  | .arr elems => some elems
  | _ => none

/-- Required field of the given shape. -/
def reqField (fields : List (String × Json)) (key : String)
    (f : Json → Option α) : Option α :=
  (jsonLookup fields key).bind f

/-- Model of `Option<T>` field: absent or `null` is `none`; a present field must
have the right shape. -/
def optField (fields : List (String × Json)) (key : String)
    (f : Json → Option α) : Option (Option α) :=
  match jsonLookup fields key with
  | none => some none
  | some Json.null => some none
  | some v => (f v).map some

/-- Model of `Deserialize` for `Segment` (serde `tag = "type"`, `content = "data"`,
snake_case variant names). Only the payload fields the engine reads
(`text`, `qq`, `id`) are decoded; the other variants are recognized by
name. -/
def decodeSegment (j : Json) : Option Segment := do
  let fields ← j.asObj
  let ty ← reqField fields "type" Json.asStr
  match ty with
  | "text" => do
      let data ← reqField fields "data" Json.asObj
      let t ← reqField data "text" Json.asStr
      pure (Segment.text ⟨t⟩)
  | "at" => do
      let data ← reqField fields "data" Json.asObj
      let qq ← reqField data "qq" Json.asStr
      pure (Segment.atSeg ⟨qq⟩)
  | "reply" => do
      let data ← reqField fields "data" Json.asObj
      let id ← reqField data "id" Json.asStr
      pure (Segment.reply ⟨id⟩)
  | "face" => pure Segment.face
  | "image" => pure Segment.image
  | "record" => pure Segment.record
  | "video" => pure Segment.video
  | "dice" => pure Segment.dice
  | "shake" => pure Segment.shake
  | "poke" => pure Segment.poke
  | "anonymous" => pure Segment.anonymous
  | "share" => pure Segment.share
  | "contact" => pure Segment.contact
  | "location" => pure Segment.location
  | "music" => pure Segment.music
  | "forward" => pure Segment.forward
  | "node" => pure Segment.node
  | "xml" => pure Segment.xml
  | "json" => pure Segment.json
  | _ => none

def decodeSenderSex : Json → Option SenderSex
  | .str "male" => some .male
  | .str "female" => some .female
  | .str "unknown" => some .unknown
  | _ => none

def decodeGroupSenderRole : Json → Option GroupSenderRole
  | .str "owner" => some .owner
  | .str "admin" => some .admin
  | .str "member" => some .member
  | _ => none

def decodePrivateSenderInfo (j : Json) : Option PrivateSenderInfo := do
  let fields ← j.asObj
  let user_id ← optField fields "user_id" Json.asInt
  let nickname ← optField fields "nickname" Json.asStr
  let sex ← optField fields "sex" decodeSenderSex
  let age ← optField fields "age" Json.asInt
  pure ⟨user_id, nickname, sex, age⟩

def decodeGroupSenderInfo (j : Json) : Option GroupSenderInfo := do
  let fields ← j.asObj
  let user_id ← optField fields "user_id" Json.asInt
  let nickname ← optField fields "nickname" Json.asStr
  let card ← optField fields "card" Json.asStr
  let sex ← optField fields "sex" decodeSenderSex
  let age ← optField fields "age" Json.asInt
  let area ← optField fields "area" Json.asStr
  let level ← optField fields "level" Json.asStr
  let role ← optField fields "role" decodeGroupSenderRole
  let title ← optField fields "title" Json.asStr
  pure ⟨user_id, nickname, card, sex, age, area, level, role, title⟩

def decodeGroupAnonymousInfo (j : Json) : Option GroupAnonymousInfo := do
  let fields ← j.asObj
  let id ← reqField fields "id" Json.asInt
  let name ← reqField fields "name" Json.asStr
  let flag ← reqField fields "flag" Json.asStr
  pure ⟨id, name, flag⟩

def decodePrivateSubType : Json → Option PrivateSubType
  | .str "friend" => some .friend
  | .str "group" => some .group
  | .str "other" => some .other
  | _ => none

def decodeGroupSubType : Json → Option GroupSubType
  | .str "normal" => some .normal
  | .str "anonymous" => some .anonymous
  | .str "notice" => some .notice
  | _ => none

/-- The flattened `TypedMessageInfo` (serde tag `message_type`). -/
def decodeTypedMessageInfo (fields : List (String × Json)) :
    Option TypedMessageInfo := do
  let ty ← reqField fields "message_type" Json.asStr
  match ty with
  | "group" => do
      let sub_type ← reqField fields "sub_type" decodeGroupSubType
      let group_id ← reqField fields "group_id" Json.asInt
      let sender ← reqField fields "sender" decodeGroupSenderInfo
      let anonymous ← optField fields "anonymous" decodeGroupAnonymousInfo
      pure (TypedMessageInfo.group ⟨sub_type, group_id, sender, anonymous⟩)
  | "private" => do
      let sub_type ← reqField fields "sub_type" decodePrivateSubType
      let sender ← reqField fields "sender" decodePrivateSenderInfo
      pure (TypedMessageInfo.priv ⟨sub_type, sender⟩)
  | _ => none

/-- Model of `Deserialize` for the message event payload `event::message::Message`. -/
def decodeMessageEvent (j : Json) : Option MessageEvent := do
  let fields ← j.asObj
  let message_id ← reqField fields "message_id" Json.asInt
  let user_id ← reqField fields "user_id" Json.asInt
  let segs ← reqField fields "message" Json.asArr
  let message ← segs.mapM decodeSegment
  let raw_message ← reqField fields "raw_message" Json.asStr
  let font ← reqField fields "font" Json.asInt
  let info ← decodeTypedMessageInfo fields
  pure ⟨message_id, user_id, message, raw_message, font, info⟩

/-- Model of `Deserialize` for `TypedEvent`: tagged by `post_type`, with the
untagged `Unknown(Value)` fallback absorbing unrecognized or absent tags. -/
def decodeTypedEvent (j : Json) : Option TypedEvent :=
  match j.asObj.bind (fun fields => reqField fields "post_type" Json.asStr) with
  | some "message" => (decodeMessageEvent j).map TypedEvent.message
  | some "notice" => some (TypedEvent.notice j)
  | some "request" => some (TypedEvent.request j)
  | some "meta_event" => some (TypedEvent.metaEvent j)
  | _ => some (TypedEvent.unknown j)

/-- Model of `Deserialize` for `Event`: `time`, `self_id`, and the flattened
`TypedEvent`. -/
def decodeEvent (j : Json) : Option Event := do
  let fields ← j.asObj
  let time ← reqField fields "time" Json.asInt
  let self_id ← reqField fields "self_id" Json.asInt
  let ev ← decodeTypedEvent j
  pure ⟨time, self_id, ev⟩

/-! ## Read-loop frame classification
(`FlowBot::check_is_echo`, `FlowBot::run_msg_loop`, `FlowBot::handle_event`,
src/lib.rs) -/

/-- Model of `FlowBot::check_is_echo`: `serde_json::from_str(msg).unwrap()` — a
frame that is not valid JSON panics the read task — then `Some(echo)`
exactly when the value is an object whose `echo` field is a string. -/
def check_is_echo (msg : String) : PanicOr (Option String) :=
  match parseJson msg with
  | none => PanicOr.panicked
  | some (Json.obj fields) =>
    match jsonLookup fields "echo" with
    | some (Json.str echo) => PanicOr.ok (some echo)
    | _ => PanicOr.ok none
  | some _ => PanicOr.ok none

/-- The object-with-string-`echo` test inside `check_is_echo`, factored
over an already parsed value. -/
def echoStrField : Json → Option String
  | Json.obj fields =>
    (match jsonLookup fields "echo" with
     | some (Json.str echo) => some echo
     | _ => none)
  | _ => none

/-- What the body of `run_msg_loop` does with one inbound text frame. -/
inductive FrameStep where
  | panicked
  | intake (echo : String) (raw : String)
  | spawned (ev : Event)
  | decodeError

/-- One iteration of `FlowBot::run_msg_loop` on a text frame:
`check_is_echo` first (panicking on invalid JSON); a frame with a string
`echo` field goes to `Context::on_recv_echo` and the loop continues;
otherwise `handle_event` decodes an `Event` (an undecodable event frame
makes `handle_event` return `Err`, ending the loop) and spawns an
independent task for the dispatch pipeline, without waiting on it. -/
def processTextFrame (text : String) : FrameStep :=
  match check_is_echo text with
  | PanicOr.panicked => FrameStep.panicked
  | PanicOr.ok (some echo) => FrameStep.intake echo text
  | PanicOr.ok none =>
    match (parseJson text).bind decodeEvent with
    | some ev => FrameStep.spawned ev
    | none => FrameStep.decodeError

/-! ## Errors (src/error.rs) and the RPC correlator (src/base/context.rs)

`error.rs` as committed lists `ExtractorError`, `WebSocketError`,
`FromUtf8Error`, `JsonError`, `NoConnection`, `NoResponse`; `context.rs`
additionally constructs `FlowError::Timeout(30000)`, which the embedding
therefore includes. -/

inductive FlowError where
  | extractorError (extractor event : String)
  | webSocketError (msg : String)
  | fromUtf8Error
  | jsonError
  | noConnection
  | noResponse
  | timeout (ms : Nat)
  deriving DecidableEq

/-- The `pending_requests: DashMap<String, oneshot::Sender<String>>` table,
abstracted to the list of tokens that currently hold a live sender. -/
abbrev PendingTable := List String

/-- Model of `Context::on_recv_echo` (src/base/context.rs): remove the entry for
the token and fire its signal with the raw reply text; an unknown token
(already timed out, never issued) is silently ignored. Returns the table
afterwards and the text delivered to a signal, if any. -/
def on_recv_echo (pending : PendingTable) (echo : String) (data : String) :
    PendingTable × Option String :=
  if echo ∈ pending then (pending.erase echo, some data) else (pending, none)

/-- What happens while `send_obj` awaits its oneshot receiver. -/
inductive RecvOutcome where
  | delivered (data : String)
  | senderDropped
  | timedOut
  deriving DecidableEq

/-- The environment one `send_obj` call runs against. -/
structure SendEnv where
  sinkAttached : Bool
  sendOk : Bool
  recv : RecvOutcome
  deriving DecidableEq

/-- Model of `Context::send_obj` (src/base/context.rs). `echo` stands for the
freshly generated UUID, `decode` for `serde_json::from_str::<ApiResponse<R>>`.
Effect on the pending table, path by path, as in the source: the entry is
registered before anything else; the `NoConnection` and send-failure
early returns leave it in the table; a delivered reply had its entry
removed by `on_recv_echo`; a dropped sender implies its entry was
destroyed; the timeout branch removes the entry explicitly. -/
def send_obj (decode : String → Option ρ) (echo : String)
    (pending : PendingTable) (env : SendEnv) :
    Except FlowError ρ × PendingTable :=
  let pending1 := echo :: pending
  if env.sinkAttached = false then
    (Except.error FlowError.noConnection, pending1)
  else if env.sendOk = false then
    (Except.error (FlowError.webSocketError "send failed"), pending1)
  else
    match env.recv with
    | RecvOutcome.delivered data =>
      (match decode data with
       | some r => (Except.ok r, pending1.erase echo)
       | none => (Except.error FlowError.jsonError, pending1.erase echo))
    | RecvOutcome.senderDropped =>
      (Except.error FlowError.noResponse, pending1.erase echo)
    | RecvOutcome.timedOut =>
      (Except.error (FlowError.timeout 30000), pending1.erase echo)

/-- The shared `Context` as far as extractors observe it (the socket sink
and the type-keyed state map are not read by any definition below). -/
structure Context where
  pending : PendingTable

/-! ## Pipeline control and the extractor protocol
(src/base/handler.rs, src/base/extract.rs) -/

/-- Model of `HandlerControl` (src/base/handler.rs); `Continue` is `cont` here. -/
inductive HandlerControl where
  | skip
  | cont
  | block
  deriving DecidableEq

namespace Extract

/-- Model of `extract.rs` `Message` (wraps the message body of a message event). -/
structure Message where
  message : MessageBody
  deriving DecidableEq

/-- Model of `impl FromEvent for Message`: succeeds exactly on message events. -/
def Message.from_event (_ctx : Context) (event : Event) : Option Message :=
  match event.event with
  | TypedEvent.message msg => some ⟨msg.message⟩
  | _ => none

/-- Model of `extract.rs` `GroupId`. -/
structure GroupId where
  group_id : Int
  deriving DecidableEq

/-- Model of `impl FromEvent for GroupId`: succeeds exactly on group message
events. -/
def GroupId.from_event (_ctx : Context) (event : Event) : Option GroupId :=
  match event.event with
  | TypedEvent.message msg =>
    (match msg.info with
     | TypedMessageInfo.group info => some ⟨info.group_id⟩
     | TypedMessageInfo.priv _ => none)
  | _ => none

/-- Model of `impl<T: FromEvent> FromEvent for Option<T>`:
`Some(T::from_event(context, event).await)`. -/
def optionFromEvent (inner : Context → Event → Option α) :
    Context → Event → Option (Option α) :=
  fun ctx event => some (inner ctx event)

/-- The `match_one!` combinator instantiated at two candidates `[A, B]`:
try each in order, adopt the first success tagged with its variant
(`Sum.inl` for the first candidate), fail when every candidate fails. -/
def matchOne (a : Context → Event → Option α) (b : Context → Event → Option β) :
    Context → Event → Option (Sum α β) :=
  fun ctx event =>
    match a ctx event with
    | some x => some (Sum.inl x)
    | none =>
      match b ctx event with
      | some y => some (Sum.inr y)
      | none => none

/-- Model of `extract.rs` `Reply` (the fetched replied-to message body). -/
structure Reply where
  reply : MessageBody
  deriving DecidableEq

/-- First `Segment::Reply` of a message body, as the `for` loop of
`Reply::from_event` finds it. -/
def findReplySegment : MessageBody → Option ReplySegment
  | [] => none
  | Segment.reply r :: _ => some r
  | _ :: rest => findReplySegment rest

end Extract

/-- The observable effects an extractor may perform. -/
inductive Act where
  | getMessage (message_id : Int)
  deriving DecidableEq

/-- Model of `str::parse::<i64>` as applied to reply segment ids: an
optional sign followed by one or more decimal digits (`i64` overflow is
outside the modelled range of ids). -/
def parseI64 (s : String) : Option Int :=
  match s.toList with
  | '-' :: ds =>
    if ds ≠ [] ∧ ds.all Char.isDigit then some (-(digitsToNat ds : Int)) else none
  | '+' :: ds =>
    if ds ≠ [] ∧ ds.all Char.isDigit then some (digitsToNat ds : Int) else none
  | ds =>
    if ds ≠ [] ∧ ds.all Char.isDigit then some (digitsToNat ds : Int) else none

/-- Model of `impl FromEvent for Reply` (src/base/extract.rs 206–227): on a message
event, take the first reply segment, `parse::<i64>` its id (`.ok()?`),
issue the `get_message` RPC through the context (`.ok()?`), wrap the
fetched body. `gm` is the environment's answer to the RPC; the fact that
the call was issued is recorded as an `Act.getMessage`. -/
def Extract.Reply.from_event (gm : Int → Option MessageBody)
    (_ctx : Context) (event : Event) : Option Extract.Reply × List Act :=
  match event.event with
  | TypedEvent.message msg =>
    (match Extract.findReplySegment msg.message with
     | none => (none, [])
     | some r =>
       match parseI64 r.id with
       | none => (none, [])
       | some id => ((gm id).map (fun m => ⟨m⟩), [Act.getMessage id]))
  | _ => (none, [])

/-! ## Bare handlers (the `impl_handler!` macro, src/base/handler.rs 34–52)

The macro's instance for an argument tuple `(T1, ..., Tn)` builds the Rust
tuple `(T1::from_event(..).await, ..., Tn::from_event(..).await)` — every
extractor is awaited, in declaration order, before the tuple is matched —
and invokes the body only when every component is `Some`, yielding
`HandlerControl::Skip` otherwise. The embedding erases the heterogeneous
tuple to a list over a value sum type. -/

/-- Values flowing from extractors to a handler body (type erasure of the
tuple components used in this development). -/
inductive ExtVal where
  | messageVal (m : Extract.Message)
  | groupIdVal (g : Extract.GroupId)
  | replyVal (r : Extract.Reply)
  deriving DecidableEq

/-- An extractor with observable effects. -/
abbrev EffExtractor := Context → Event → Option ExtVal × List Act

/-- A bare handler: declared extractor list plus body. -/
structure BareHandler where
  extractors : List EffExtractor
  body : List ExtVal → HandlerControl × List Act

/-- The all-`Some` tuple pattern `($(Some($ty),)*)` of `impl_handler!`:
the values when every component is `Some`, `none` otherwise. -/
def allSome : List (Option α) → Option (List α)
  | [] => some []
  | none :: _ => none
  | some a :: rest => (allSome rest).map (a :: ·)

/-- Model of `Handler::handle` from `impl_handler!`: evaluate every extractor (all
of them, regardless of earlier failures), then run the body iff all
succeeded, else `Skip`. -/
def BareHandler.handle (h : BareHandler) (ctx : Context) (event : Event) :
    HandlerControl × List Act :=
  let results := h.extractors.map (fun ext => ext ctx event)
  let acts := (results.map Prod.snd).flatten
  match allSome (results.map Prod.fst) with
  | some vals =>
    let r := h.body vals
    (r.1, acts ++ r.2)
  | none => (HandlerControl.skip, acts)

/-- The two-argument instance of `impl_handler!` with its heterogeneous
types kept (used for the `(Message, GroupId)` scenario). -/
def handle2 (ext1 : Context → Event → Option α) (ext2 : Context → Event → Option β)
    (body : α → β → HandlerControl) (ctx : Context) (event : Event) :
    HandlerControl :=
  match (ext1 ctx event, ext2 ctx event) with
  | (some a, some b) => body a b
  | _ => HandlerControl.skip

/-! ## The dispatch pipeline (`FlowBot::handle_event`, src/lib.rs 278–300) -/

/-- One registration: `HandlerOrService` erased to its invocation. -/
inductive Registration where
  | handler (call : Context → Event → HandlerControl)
  | service (serve : Context → Event → HandlerControl)

def Registration.invoke : Registration → Context → Event → HandlerControl
  | .handler call, ctx, e => call ctx e
  | .service serve, ctx, e => serve ctx e

/-- The spawned task's loop over the registration list, in order,
breaking after a `Block`. The returned list is the trace of controls of
the invocations actually performed, in order. -/
def dispatchEvent (regs : List Registration) (ctx : Context) (event : Event) :
    List HandlerControl :=
  match regs with
  | [] => []
  | r :: rest =>
    let control := r.invoke ctx event
    match control with
    | HandlerControl.block => [HandlerControl.block]
    | c => c :: dispatchEvent rest ctx event

/-! ## The startup sequence (`FlowBot::run`, src/lib.rs 214–226) and the
reconnection configuration (src/base/connect.rs) -/

/-- Model of `connect.rs` `ReconnectionStrategy`. -/
inductive ReconnectionStrategy where
  | infinite (initial_delay_ms max_delay_ms : Nat)
  | limited (max_attempts : Nat) (initial_delay_ms max_delay_ms : Nat)
  | noReconnect
  deriving DecidableEq

/-- Model of `connect.rs` `ReverseConnectionConfig`. -/
structure ReverseConnectionConfig where
  target : String
  auth : Option String
  reconnection : ReconnectionStrategy
  deriving DecidableEq

/-- Registration kinds in builder order (`FlowBot.handlers`). -/
inductive RegKind where
  | handler
  | service
  deriving DecidableEq

/-- Top-level actions of `FlowBot::run`, in execution order.
`reconnectConsulted` is in the alphabet so that its absence from every
trace is expressible. -/
inductive RunAct where
  | connected
  | sinkSet
  | frameProcessed (text : String)
  | serviceInit (idx : Nat)
  | reconnectConsulted
  deriving DecidableEq

/-- Model of `FlowBot::init_services`: for each registration that is a service, in
list order, invoke its `init`. -/
def init_services (regs : List RegKind) : List RunAct :=
  (regs.enum.filter (fun p => p.2 = RegKind.service)).map
    (fun p => RunAct.serviceInit p.1)

/-- Model of `FlowBot::run` as the sequence it executes: `connect` and `set_sink`,
then `run_msg_loop(read).await?` — which processes every frame the stream
delivers until the stream ends or yields an error — and only after the
loop returns `Ok` does `init_services` run. `loopErr` is the error that
terminated the read loop, if any; `frames` are the text frames processed
before termination. `config` is consumed only by `connect` (target and
auth header); in particular `config.reconnection` is never read. -/
def runBot (config : ReverseConnectionConfig) (regs : List RegKind)
    (frames : List String) (loopErr : Option FlowError) :
    Except FlowError Unit × List RunAct :=
  let _target := config.target
  let _auth := config.auth
  let loopTrace := [RunAct.connected, RunAct.sinkSet] ++
    frames.map RunAct.frameProcessed
  match loopErr with
  | some e => (Except.error e, loopTrace)
  | none => (Except.ok (), loopTrace ++ init_services regs)

/-! ## Concrete sample values used by closed instances of the theorems -/

def sampleCtx : Context := ⟨[]⟩

def sampleUnknownEvent : Event := ⟨0, 0, TypedEvent.unknown Json.null⟩

def sampleGroupSender : GroupSenderInfo :=
  ⟨none, none, none, none, none, none, none, none, none⟩

def samplePrivateSender : PrivateSenderInfo := ⟨none, none, none, none⟩

/-- A group message event (group id 42). -/
def sampleGroupEvent : Event :=
  ⟨1700000000, 10000, TypedEvent.message
    ⟨77, 123, [Segment.text ⟨"hi"⟩], "hi", 0,
      TypedMessageInfo.group ⟨GroupSubType.normal, 42, sampleGroupSender, none⟩⟩⟩

/-- A private (friend) message event. -/
def samplePrivateEvent : Event :=
  ⟨1700000000, 10000, TypedEvent.message
    ⟨78, 123, [Segment.text ⟨"hi"⟩], "hi", 0,
      TypedMessageInfo.priv ⟨PrivateSubType.friend, samplePrivateSender⟩⟩⟩

/-- A private message event carrying a reply segment referring to
message id 7. -/
def sampleReplyPrivateEvent : Event :=
  ⟨1700000000, 10000, TypedEvent.message
    ⟨79, 123, [Segment.reply ⟨"7"⟩], "", 0,
      TypedMessageInfo.priv ⟨PrivateSubType.friend, samplePrivateSender⟩⟩⟩

/-- The `GroupId` extractor in the erased effectful form (it performs no
effect). -/
def groupIdEff : EffExtractor :=
  fun ctx e => ((Extract.GroupId.from_event ctx e).map ExtVal.groupIdVal, [])

/-- The `Reply` extractor in the erased effectful form. -/
def replyEff (gm : Int → Option MessageBody) : EffExtractor :=
  fun ctx e =>
    let r := Extract.Reply.from_event gm ctx e
    (r.1.map ExtVal.replyVal, r.2)

/-! ## Helper lemmas -/

/-- The all-`Some` match fails as soon as one component is `none`. -/
theorem allSome_eq_none_of_mem_none {α : Type} {l : List (Option α)}
    (h : (none : Option α) ∈ l) : allSome l = none := by
  induction l with
  | nil => cases h
  | cons x rest ih =>
    cases x with
    | none => rfl
    | some a =>
      rcases List.mem_cons.mp h with h1 | h2
      · exact absurd h1 (by simp)
      · simp [allSome, ih h2]

/-- Unfolding of `dispatchEvent` on a cons cell. -/
theorem dispatchEvent_cons (r : Registration) (rest : List Registration)
    (ctx : Context) (e : Event) :
    dispatchEvent (r :: rest) ctx e =
      (match r.invoke ctx e with
       | HandlerControl.block => [HandlerControl.block]
       | c => c :: dispatchEvent rest ctx e) := rfl

/-- A prefix of non-`Block` registrations followed by a `Block` one fixes
the whole trace; nothing after the blocking registration is invoked. -/
theorem dispatchEvent_upto_block (ctx : Context) (e : Event) :
    ∀ (pre : List Registration) (rk : Registration) (post : List Registration),
      (∀ r ∈ pre, r.invoke ctx e ≠ HandlerControl.block) →
      rk.invoke ctx e = HandlerControl.block →
      dispatchEvent (pre ++ rk :: post) ctx e
        = pre.map (fun r => r.invoke ctx e) ++ [HandlerControl.block]
  | [], rk, post, _, hblock => by
      simp [dispatchEvent_cons, hblock]
  | r :: pre', rk, post, hpre, hblock => by
      have hr : r.invoke ctx e ≠ HandlerControl.block := hpre r (by simp)
      have ih := dispatchEvent_upto_block ctx e pre' rk post
        (fun r' hr' => hpre r' (by simp [hr'])) hblock
      cases hc : r.invoke ctx e with
      | block => exact absurd hc hr
      | skip => simp [dispatchEvent_cons, hc, ih]
      | cont => simp [dispatchEvent_cons, hc, ih]

/-- A bare handler whose extractor list contains a failing extractor
produces `Skip` together with the effects of every declared extractor. -/
theorem handle_skip_of_fail (exts : List EffExtractor)
    (b : List ExtVal → HandlerControl × List Act) (ctx : Context) (e : Event)
    (hfail : ∃ ext ∈ exts, (ext ctx e).1 = none) :
    BareHandler.handle ⟨exts, b⟩ ctx e
      = (HandlerControl.skip, (exts.map (fun x => (x ctx e).2)).flatten) := by
  have hnone : (none : Option ExtVal)
      ∈ (exts.map (fun ext => ext ctx e)).map Prod.fst := by
    rcases hfail with ⟨ext, hmem, hfst⟩
    exact List.mem_map.mpr ⟨ext ctx e, List.mem_map.mpr ⟨ext, hmem, rfl⟩, hfst⟩
  have hres := allSome_eq_none_of_mem_none hnone
  rw [List.map_map] at hres
  simp only [Function.comp_def] at hres
  simp [BareHandler.handle, hres, List.map_map, Function.comp_def]

/-! ## Claims -/

/-- C9: a text frame whose content is not valid JSON makes the
frame-classification step of the read loop panic (`check_is_echo`
unwraps the parse result), rather than produce any `FlowError`-returning
step; the loop's error path never covers this case. -/
theorem c9_invalid_json_panics (s : String) (h : parseJson s = none) :
    check_is_echo s = PanicOr.panicked ∧
      processTextFrame s = FrameStep.panicked := by
  refine ⟨by simp [check_is_echo, h], ?_⟩
  simp [processTextFrame, check_is_echo, h]

/-- Witness for C9 at the concrete non-JSON frame "oops". -/
theorem c9_invalid_json_panics_witness :
    parseJson "oops" = none ∧ check_is_echo "oops" = PanicOr.panicked ∧
      processTextFrame "oops" = FrameStep.panicked :=
  ⟨rfl, (c9_invalid_json_panics "oops" rfl).1, (c9_invalid_json_panics "oops" rfl).2⟩

/-- C6: the `Option` combinator over any extractor always succeeds and
carries exactly the inner extractor's result; the first-match combinator
over `[A, B]` adopts `A`'s result (tagged as the first variant) whenever
`A` succeeds, regardless of `B`, and fails exactly when both fail. -/
theorem c6_extractor_combinators {α β : Type} (ctx : Context) (event : Event)
    (x a : Context → Event → Option α) (b : Context → Event → Option β) :
    Extract.optionFromEvent x ctx event = some (x ctx event) ∧
    (∀ v, a ctx event = some v →
       Extract.matchOne a b ctx event = some (Sum.inl v)) ∧
    (Extract.matchOne a b ctx event = none ↔
       a ctx event = none ∧ b ctx event = none) := by
  refine ⟨rfl, ?_, ?_⟩
  · intro v hv
    simp [Extract.matchOne, hv]
  · cases ha : a ctx event <;> cases hb : b ctx event <;>
      simp [Extract.matchOne, ha, hb]

/-- Witness for C6: the optional combinator turning an inner failure into
a carried `none`, and the first-match combinator preferring the first
candidate although the second would also succeed. -/
theorem c6_extractor_combinators_witness :
    Extract.optionFromEvent (fun _ _ => (none : Option Nat)) sampleCtx
        sampleUnknownEvent = some none ∧
    Extract.matchOne (fun _ _ => some (5 : Nat)) (fun _ _ => some (6 : Nat))
        sampleCtx sampleUnknownEvent = some (Sum.inl 5) := by
  refine ⟨?_, ?_⟩
  · exact (c6_extractor_combinators sampleCtx sampleUnknownEvent
      (fun _ _ => none) (fun _ _ => some 5) (fun _ _ => some (6 : Nat))).1
  · exact (c6_extractor_combinators sampleCtx sampleUnknownEvent
      (fun _ _ => none) (fun _ _ => some 5) (fun _ _ => some (6 : Nat))).2.1 5 rfl

/-- C7: a handler declaring `(Message, GroupId)` runs its body exactly on
group message events; on a private message and on any non-message event
the outcome is `Skip` (independent of the body — the body is never
invoked) and no error is produced (the result is a control signal, not an
error value). -/
theorem c7_message_group_projection (ctx : Context) (e : Event)
    (body : Extract.Message → Extract.GroupId → HandlerControl) :
    (∀ m info, e.event = TypedEvent.message m →
       m.info = TypedMessageInfo.group info →
       handle2 Extract.Message.from_event Extract.GroupId.from_event body ctx e
         = body ⟨m.message⟩ ⟨info.group_id⟩) ∧
    (∀ m pinfo, e.event = TypedEvent.message m →
       m.info = TypedMessageInfo.priv pinfo →
       handle2 Extract.Message.from_event Extract.GroupId.from_event body ctx e
           = HandlerControl.skip ∧
       ∀ body2,
         handle2 Extract.Message.from_event Extract.GroupId.from_event body ctx e
           = handle2 Extract.Message.from_event Extract.GroupId.from_event body2
               ctx e) ∧
    ((∀ m, e.event ≠ TypedEvent.message m) →
       handle2 Extract.Message.from_event Extract.GroupId.from_event body ctx e
         = HandlerControl.skip) := by
  refine ⟨?_, ?_, ?_⟩
  · intro m info hm hinfo
    simp [handle2, Extract.Message.from_event, Extract.GroupId.from_event, hm,
      hinfo]
  · intro m pinfo hm hinfo
    constructor
    · simp [handle2, Extract.Message.from_event, Extract.GroupId.from_event, hm,
        hinfo]
    · intro body2
      simp [handle2, Extract.Message.from_event, Extract.GroupId.from_event, hm,
        hinfo]
  · intro hnm
    cases he : e.event with
    | message m => exact absurd he (hnm m)
    | notice raw =>
        simp [handle2, Extract.Message.from_event, Extract.GroupId.from_event, he]
    | request raw =>
        simp [handle2, Extract.Message.from_event, Extract.GroupId.from_event, he]
    | metaEvent raw =>
        simp [handle2, Extract.Message.from_event, Extract.GroupId.from_event, he]
    | unknown raw =>
        simp [handle2, Extract.Message.from_event, Extract.GroupId.from_event, he]

/-- Witness for C7: the `(Message, GroupId)` handler runs on a group
message and is skipped on a private message. -/
theorem c7_message_group_projection_witness :
    handle2 Extract.Message.from_event Extract.GroupId.from_event
        (fun _ _ => HandlerControl.block) sampleCtx sampleGroupEvent
      = HandlerControl.block ∧
    handle2 Extract.Message.from_event Extract.GroupId.from_event
        (fun _ _ => HandlerControl.block) sampleCtx samplePrivateEvent
      = HandlerControl.skip := by
  refine ⟨?_, ?_⟩
  · exact (c7_message_group_projection sampleCtx sampleGroupEvent
      (fun _ _ => HandlerControl.block)).1
      ⟨77, 123, [Segment.text ⟨"hi"⟩], "hi", 0,
        TypedMessageInfo.group ⟨GroupSubType.normal, 42, sampleGroupSender, none⟩⟩
      ⟨GroupSubType.normal, 42, sampleGroupSender, none⟩ rfl rfl
  · exact ((c7_message_group_projection sampleCtx samplePrivateEvent
      (fun _ _ => HandlerControl.block)).2.1
      ⟨78, 123, [Segment.text ⟨"hi"⟩], "hi", 0,
        TypedMessageInfo.priv ⟨PrivateSubType.friend, samplePrivateSender⟩⟩
      ⟨PrivateSubType.friend, samplePrivateSender⟩ rfl rfl).1

/-- C2: in the dispatch pipeline, (a) once a registration returns `Block`
the trace is exactly the earlier (non-`Block`) invocations followed by
that `Block`, and it is independent of the registrations placed after the
blocking one — none of them is invoked; (b) a bare handler with a failing
extractor yields `Skip` without its body being invoked (the outcome does
not depend on the body); (c) after a `Skip` the pipeline proceeds to the
next registration exactly as it does after a `Continue`. -/
theorem c2_pipeline_short_circuit (ctx : Context) (e : Event) :
    (∀ (pre post post2 : List Registration) (rk : Registration),
       (∀ r ∈ pre, r.invoke ctx e ≠ HandlerControl.block) →
       rk.invoke ctx e = HandlerControl.block →
       dispatchEvent (pre ++ rk :: post) ctx e
           = pre.map (fun r => r.invoke ctx e) ++ [HandlerControl.block] ∧
       dispatchEvent (pre ++ rk :: post) ctx e
           = dispatchEvent (pre ++ rk :: post2) ctx e) ∧
    (∀ (exts : List EffExtractor) (b b2 : List ExtVal → HandlerControl × List Act),
       (∃ ext ∈ exts, (ext ctx e).1 = none) →
       (BareHandler.handle ⟨exts, b⟩ ctx e).1 = HandlerControl.skip ∧
       BareHandler.handle ⟨exts, b⟩ ctx e = BareHandler.handle ⟨exts, b2⟩ ctx e) ∧
    (∀ (hcall : Context → Event → HandlerControl) (rest : List Registration),
       hcall ctx e = HandlerControl.skip ∨ hcall ctx e = HandlerControl.cont →
       dispatchEvent (Registration.handler hcall :: rest) ctx e
           = hcall ctx e :: dispatchEvent rest ctx e) := by
  refine ⟨?_, ?_, ?_⟩
  · intro pre post post2 rk hpre hblock
    exact ⟨dispatchEvent_upto_block ctx e pre rk post hpre hblock,
      (dispatchEvent_upto_block ctx e pre rk post hpre hblock).trans
        (dispatchEvent_upto_block ctx e pre rk post2 hpre hblock).symm⟩
  · intro exts b b2 hfail
    refine ⟨?_, ?_⟩
    · rw [handle_skip_of_fail exts b ctx e hfail]
    · rw [handle_skip_of_fail exts b ctx e hfail,
        handle_skip_of_fail exts b2 ctx e hfail]
  · intro hcall rest h
    rcases h with h | h <;> simp [dispatchEvent_cons, Registration.invoke, h]

/-- Witness for C2: a `Continue` handler, then a `Block` handler, then a
handler that is never reached; and a bare handler whose failing extractor
list produces `Skip`. -/
theorem c2_pipeline_short_circuit_witness :
    dispatchEvent
        [Registration.handler (fun _ _ => HandlerControl.cont),
         Registration.handler (fun _ _ => HandlerControl.block),
         Registration.handler (fun _ _ => HandlerControl.cont)]
        sampleCtx sampleUnknownEvent
      = [HandlerControl.cont, HandlerControl.block] ∧
    (BareHandler.handle
        ⟨[fun _ _ => (none, [])], fun _ => (HandlerControl.block, [])⟩
        sampleCtx sampleUnknownEvent).1 = HandlerControl.skip := by
  refine ⟨?_, ?_⟩
  · have h := ((c2_pipeline_short_circuit sampleCtx sampleUnknownEvent).1
      [Registration.handler (fun _ _ => HandlerControl.cont)]
      [Registration.handler (fun _ _ => HandlerControl.cont)] []
      (Registration.handler (fun _ _ => HandlerControl.block))
      (by
        intro r hr
        simp only [List.mem_singleton] at hr
        subst hr
        simp [Registration.invoke])
      (by simp [Registration.invoke])).1
    simpa [Registration.invoke] using h
  · exact ((c2_pipeline_short_circuit sampleCtx sampleUnknownEvent).2.1
      [fun _ _ => (none, [])] (fun _ => (HandlerControl.block, []))
      (fun _ => (HandlerControl.block, []))
      ⟨fun _ _ => (none, []), by simp, rfl⟩).1

/-- C10: the `impl_handler!` instances evaluate every declared extractor:
(a) when some extractor fails, the handler still performs the effects of
every extractor, in declaration order, and yields `Skip`; (b) in every
case the act trace starts with the concatenation of all extractors'
effects; (c) concretely, a `(GroupId, Reply)` handler on a private
message carrying a reply segment with id "7" issues the nested
`get_message 7` RPC although `GroupId` already failed and the handler is
skipped. -/
theorem c10_all_extractors_evaluated (ctx : Context) (e : Event) :
    (∀ (exts : List EffExtractor) (b : List ExtVal → HandlerControl × List Act),
       (∃ ext ∈ exts, (ext ctx e).1 = none) →
       BareHandler.handle ⟨exts, b⟩ ctx e
         = (HandlerControl.skip, (exts.map (fun x => (x ctx e).2)).flatten)) ∧
    (∀ (exts : List EffExtractor) (b : List ExtVal → HandlerControl × List Act),
       ∃ tail, (BareHandler.handle ⟨exts, b⟩ ctx e).2
         = (exts.map (fun x => (x ctx e).2)).flatten ++ tail) ∧
    (∀ (gm : Int → Option MessageBody)
       (b : List ExtVal → HandlerControl × List Act),
       BareHandler.handle ⟨[groupIdEff, replyEff gm], b⟩ ctx
           sampleReplyPrivateEvent
         = (HandlerControl.skip, [Act.getMessage 7])) := by
  refine ⟨?_, ?_, ?_⟩
  · intro exts b hfail
    exact handle_skip_of_fail exts b ctx e hfail
  · intro exts b
    simp only [BareHandler.handle, List.map_map, Function.comp_def]
    cases allSome (exts.map (fun x => (x ctx e).1)) with
    | none => exact ⟨[], by simp⟩
    | some vals => exact ⟨(b vals).2, rfl⟩
  · intro gm b
    rfl

/-- Witness for C10: the concrete `(GroupId, Reply)` handler over a
private message with a reply segment, with a successful `get_message`
environment. -/
theorem c10_all_extractors_evaluated_witness :
    BareHandler.handle
        ⟨[groupIdEff, replyEff (fun _ => some [])],
         fun _ => (HandlerControl.cont, [])⟩
        sampleCtx sampleReplyPrivateEvent
      = (HandlerControl.skip, [Act.getMessage 7]) := by
  have h := (c10_all_extractors_evaluated sampleCtx sampleReplyPrivateEvent).1
    [groupIdEff, replyEff (fun _ => some [])]
    (fun _ => (HandlerControl.cont, []))
    ⟨groupIdEff, by simp, rfl⟩
  exact h.trans (by rfl)

/-- C1 counterexample: with the socket attached and the write succeeding,
a call whose signal sender is dropped before the deadline resolves to
`NoResponse`, not `Timeout`, although no reply was delivered; and a reply
delivered before the deadline whose body fails to decode resolves to a
JSON error, not a success. -/
theorem c1_rpc_correlation_counterexample :
    send_obj (fun _ => some ()) "tok" []
        ⟨true, true, RecvOutcome.senderDropped⟩
        = (Except.error FlowError.noResponse, []) ∧
      (FlowError.noResponse = FlowError.timeout 30000) = False ∧
      send_obj (fun _ => (none : Option Unit)) "tok" []
          ⟨true, true, RecvOutcome.delivered "garbled"⟩
        = (Except.error FlowError.jsonError, []) := by
  refine ⟨rfl, by simp, rfl⟩

/-- C1 (amended): for a call whose frame is actually sent, success occurs
iff a reply bearing the call's token is delivered before the 30-second
deadline *and* decodes as the typed response (otherwise the delivered
reply yields a JSON error); with no delivery the call resolves to
`Timeout` — unless the signal's sender was dropped, which yields
`NoResponse` — and in every sent-frame outcome the pending entry is gone
afterwards; a reply arriving for a token that is no longer pending is
silently discarded with no state change. -/
theorem c1_rpc_correlation (decode : String → Option ρ) (echo : String)
    (pending : PendingTable) (env : SendEnv)
    (hsink : env.sinkAttached = true) (hsend : env.sendOk = true) :
    (∀ data r, env.recv = RecvOutcome.delivered data → decode data = some r →
       send_obj decode echo pending env = (Except.ok r, pending)) ∧
    (∀ data, env.recv = RecvOutcome.delivered data → decode data = none →
       send_obj decode echo pending env
         = (Except.error FlowError.jsonError, pending)) ∧
    (env.recv = RecvOutcome.timedOut →
       send_obj decode echo pending env
         = (Except.error (FlowError.timeout 30000), pending)) ∧
    (env.recv = RecvOutcome.senderDropped →
       send_obj decode echo pending env
         = (Except.error FlowError.noResponse, pending)) ∧
    (∀ r, (send_obj decode echo pending env).1 = Except.ok r →
       ∃ data, env.recv = RecvOutcome.delivered data ∧ decode data = some r) ∧
    (∀ tok d, tok ∉ pending → on_recv_echo pending tok d = (pending, none)) := by
  refine ⟨?_, ?_, ?_, ?_, ?_, ?_⟩
  · intro data r hrecv hdec
    simp [send_obj, hsink, hsend, hrecv, hdec]
  · intro data hrecv hdec
    simp [send_obj, hsink, hsend, hrecv, hdec]
  · intro hrecv
    simp [send_obj, hsink, hsend, hrecv]
  · intro hrecv
    simp [send_obj, hsink, hsend, hrecv]
  · intro r hr
    cases hrecv : env.recv with
    | delivered data =>
        cases hdec : decode data with
        | none => simp [send_obj, hsink, hsend, hrecv, hdec] at hr
        | some r2 =>
            refine ⟨data, rfl, ?_⟩
            simp [send_obj, hsink, hsend, hrecv, hdec] at hr
            rw [hdec, hr]
    | senderDropped => simp [send_obj, hsink, hsend, hrecv] at hr
    | timedOut => simp [send_obj, hsink, hsend, hrecv] at hr
  · intro tok d htok
    simp [on_recv_echo, htok]

/-- Witness for C1 (amended): a delivered decodable reply succeeds and
restores the table; an undelivered call times out with the entry removed. -/
theorem c1_rpc_correlation_witness :
    send_obj (fun _ => some (1 : Nat)) "tok" ["other"]
        ⟨true, true, RecvOutcome.delivered "reply-body"⟩
      = (Except.ok 1, ["other"]) ∧
    send_obj (fun _ => some (1 : Nat)) "tok" []
        ⟨true, true, RecvOutcome.timedOut⟩
      = (Except.error (FlowError.timeout 30000), []) := by
  refine ⟨?_, ?_⟩
  · exact (c1_rpc_correlation (fun _ => some 1) "tok" ["other"]
      ⟨true, true, RecvOutcome.delivered "reply-body"⟩ rfl rfl).1
      "reply-body" 1 rfl rfl
  · exact (c1_rpc_correlation (fun _ => some 1) "tok" []
      ⟨true, true, RecvOutcome.timedOut⟩ rfl rfl).2.2.1 rfl

/-- C3 counterexample: a frame whose `echo` token matches no pending
request is still routed to the correlator intake (classification looks
only at the presence of a string `echo` field), where it is silently
discarded — it is never decoded as an event nor dispatched, contradicting
the claimed "exactly when it matches a currently pending request". -/
theorem c3_frame_classification_counterexample :
    processTextFrame "\x7b\"echo\":\"zz\"\x7d"
        = FrameStep.intake "zz" "\x7b\"echo\":\"zz\"\x7d" ∧
      ("zz" ∈ ([] : PendingTable)) = False ∧
      on_recv_echo [] "zz" "\x7b\"echo\":\"zz\"\x7d" = ([], none) := by
  refine ⟨rfl, by simp, rfl⟩

/-- C3 (amended): a text frame is routed to the correlator intake exactly
when it parses as a JSON object carrying a string `echo` field,
independently of the pending table (the intake removes and resolves a
matching pending entry, and silently discards an unmatched token); every
other frame is decoded as an `Event` and a new independent task is
spawned for its dispatch (an undecodable event frame ends the loop with
an error instead). -/
theorem c3_frame_classification (text : String) (j : Json)
    (hparse : parseJson text = some j) :
    (∀ e, echoStrField j = some e →
       processTextFrame text = FrameStep.intake e text) ∧
    (echoStrField j = none →
       processTextFrame text
         = (match decodeEvent j with
            | some ev => FrameStep.spawned ev
            | none => FrameStep.decodeError)) ∧
    (∀ (pending : PendingTable) (tok d : String), tok ∈ pending →
       on_recv_echo pending tok d = (pending.erase tok, some d)) ∧
    (∀ (pending : PendingTable) (tok d : String), tok ∉ pending →
       on_recv_echo pending tok d = (pending, none)) := by
  have hce : check_is_echo text = PanicOr.ok (echoStrField j) := by
    cases j with
    | obj fields =>
        simp only [check_is_echo, hparse, echoStrField]
        cases hl : jsonLookup fields "echo" with
        | none => rfl
        | some v => cases v <;> rfl
    | null => simp [check_is_echo, hparse, echoStrField]
    | bool b => simp [check_is_echo, hparse, echoStrField]
    | num n => simp [check_is_echo, hparse, echoStrField]
    | str s => simp [check_is_echo, hparse, echoStrField]
    | arr elems => simp [check_is_echo, hparse, echoStrField]
  refine ⟨?_, ?_, ?_, ?_⟩
  · intro e he
    simp [processTextFrame, hce, he]
  · intro hnone
    simp [processTextFrame, hce, hnone, hparse]
  · intro pending tok d htok
    simp [on_recv_echo, htok]
  · intro pending tok d htok
    simp [on_recv_echo, htok]

/-- Witness for C3 (amended): an echo-bearing frame goes to the intake; a
meta-event frame without `echo` is spawned as an event. -/
theorem c3_frame_classification_witness :
    processTextFrame "\x7b\"echo\":\"ee\"\x7d"
        = FrameStep.intake "ee" "\x7b\"echo\":\"ee\"\x7d" ∧
    processTextFrame
        "\x7b\"time\":1,\"self_id\":2,\"post_type\":\"meta_event\"\x7d"
      = FrameStep.spawned ⟨1, 2, TypedEvent.metaEvent
          (Json.obj [("time", Json.num 1), ("self_id", Json.num 2),
            ("post_type", Json.str "meta_event")])⟩ := by
  refine ⟨?_, ?_⟩
  · exact (c3_frame_classification "\x7b\"echo\":\"ee\"\x7d"
      (Json.obj [("echo", Json.str "ee")]) rfl).1 "ee" rfl
  · exact ((c3_frame_classification
      "\x7b\"time\":1,\"self_id\":2,\"post_type\":\"meta_event\"\x7d"
      (Json.obj [("time", Json.num 1), ("self_id", Json.num 2),
        ("post_type", Json.str "meta_event")]) rfl).2.1 rfl).trans (by rfl)

/-- C4 counterexample: a call with no socket attached fails immediately
with `NoConnection`, but the pending entry registered before the
connection check stays in the table — the table after the failed call is
not the table before it. -/
theorem c4_noconnection_counterexample :
    send_obj (fun _ => some ()) "tok" []
        ⟨false, true, RecvOutcome.timedOut⟩
        = (Except.error FlowError.noConnection, ["tok"]) ∧
      ((["tok"] : PendingTable) = ([] : PendingTable)) = False := by
  refine ⟨rfl, by simp⟩

/-- C4 (amended): with no socket attached the call fails immediately with
`NoConnection` and no write is attempted, but the pending entry inserted
before the connection check (registration happens before sending) remains
in the table after the call. -/
theorem c4_noconnection (decode : String → Option ρ) (echo : String)
    (pending : PendingTable) (env : SendEnv)
    (h : env.sinkAttached = false) :
    send_obj decode echo pending env
      = (Except.error FlowError.noConnection, echo :: pending) := by
  simp [send_obj, h]

/-- Witness for C4 (amended) at a concrete pre-connect call. -/
theorem c4_noconnection_witness :
    send_obj (fun _ => some (0 : Nat)) "uuid-1" ["uuid-0"]
        ⟨false, true, RecvOutcome.timedOut⟩
      = (Except.error FlowError.noConnection, ["uuid-1", "uuid-0"]) :=
  c4_noconnection (fun _ => some 0) "uuid-1" ["uuid-0"]
    ⟨false, true, RecvOutcome.timedOut⟩ rfl

/-- C5: in `FlowBot::run` the services are initialized only *after*
`run_msg_loop` returns: with one registered service and one delivered
frame, `serviceInit` appears in the trace after `frameProcessed` (not
before, as specified); and when the read loop ends with an error,
`init_services` never runs at all. -/
theorem c5_services_initialized_after_loop :
    (runBot ⟨"ws://localhost:19999", none, ReconnectionStrategy.noReconnect⟩
        [RegKind.service] ["frame1"] none
      = (Except.ok (), [RunAct.connected, RunAct.sinkSet,
          RunAct.frameProcessed "frame1", RunAct.serviceInit 0])) ∧
    (runBot ⟨"ws://localhost:19999", none, ReconnectionStrategy.noReconnect⟩
        [RegKind.service] ["frame1"] (some (FlowError.webSocketError "reset"))
      = (Except.error (FlowError.webSocketError "reset"),
         [RunAct.connected, RunAct.sinkSet, RunAct.frameProcessed "frame1"])) :=
  ⟨rfl, rfl⟩

/-- C8: `FlowBot::run` never consults the reconnection policy: its result
and trace are invariant under changing the configured strategy, no trace
ever contains a `reconnectConsulted` action, and concretely a run whose
read loop dies with a connection error just returns the error. -/
theorem c8_reconnection_policy_unused :
    (∀ (t : String) (a : Option String) (s1 s2 : ReconnectionStrategy)
       (regs : List RegKind) (frames : List String)
       (loopErr : Option FlowError),
       runBot ⟨t, a, s1⟩ regs frames loopErr
         = runBot ⟨t, a, s2⟩ regs frames loopErr) ∧
    (∀ (config : ReverseConnectionConfig) (regs : List RegKind)
       (frames : List String) (loopErr : Option FlowError),
       ((runBot config regs frames loopErr).2.contains
           RunAct.reconnectConsulted) = false) ∧
    (runBot ⟨"ws://x", none, ReconnectionStrategy.infinite 1000 60000⟩ [] []
        (some (FlowError.webSocketError "reset"))
      = (Except.error (FlowError.webSocketError "reset"),
         [RunAct.connected, RunAct.sinkSet])) := by
  refine ⟨?_, ?_, rfl⟩
  · intro t a s1 s2 regs frames loopErr
    rfl
  · intro config regs frames loopErr
    cases loopErr <;> simp [runBot, init_services]

end FlowBotModel
